import Mathlib

/-!
Shallow embedding of the raycasting engine in `src/main.c` and proofs about it.

Modelling conventions:
* C `float` values are idealized as exact rationals (`ℚ`).  Claims about
  floating-point rounding itself are out of scope of this embedding.
* C `int` truncating casts are modelled by `c_int`, `floorf` by `Int.floor`,
  C integer division (truncation toward zero) by `Int.tdiv`, and bitwise `&`
  on `int` by `int_and` (32-bit two's complement).
* Fallible operations (out-of-bounds lookups, a missed ray) return `Option`;
  a C null-pointer dereference (undefined behavior) is modelled as a `none`
  result of the whole operation.
* Structures keep the field names of the C structs.
-/

set_option maxRecDepth 100000
set_option maxHeartbeats 1000000

namespace Raycast

/-- Mirrors the `SCREEN_WIDTH` macro (1200). -/
def SCREEN_WIDTH : ℕ := 1200

/-- Mirrors the `SCREEN_HEIGHT` macro (900). -/
def SCREEN_HEIGHT : ℕ := 900

/-- Mirrors the `CAMERA_RADIUS` macro (`0.1f`, idealized as the exact rational). -/
def CAMERA_RADIUS : ℚ := 1/10

/-- Mirrors the `FOV_FACTOR` macro (`0.66f`, idealized as the exact rational). -/
def FOV_FACTOR : ℚ := 33/50

/-- Mirrors the `WALL_DIM_FACTOR` macro (`0xC0u`). -/
def WALL_DIM_FACTOR : ℕ := 0xC0

/-- Mirrors the `SKY_COLOR` macro (`0xFF202020u`). -/
def SKY_COLOR : ℕ := 0xFF202020

/-- Mirrors the `GROUND_COLOR` macro (`0xFF505050u`). -/
def GROUND_COLOR : ℕ := 0xFF505050

/-- Mirrors the `MAP_MAX_STEPS` macro (1024), the DDA step ceiling. -/
def MAP_MAX_STEPS : ℕ := 1024

/-- Mirrors the `MAX_TILE_ID` macro (`0xFF`). -/
def MAX_TILE_ID : ℕ := 0xFF

/-- Mirrors the `CEILING_TILE_ID` macro (`0x41`). -/
def CEILING_TILE_ID : ℕ := 0x41

/-- Mirrors the literal `1e-6f` used both as the movement-loop exit threshold in
`move_camera` and as the perpendicular-distance clamp in `render_raycast`
(idealized as the exact rational). -/
def EPS6 : ℚ := 1/1000000

/-- Mirrors `MAX_STEP` (`CAMERA_RADIUS * 0.5f`), the micro-step bound. -/
def MAX_STEP : ℚ := CAMERA_RADIUS * (1/2)

/-- Mirrors `sgnf`: `(x > 0) - (x < 0)`. -/
def sgnf (x : ℚ) : ℤ := (if 0 < x then 1 else 0) - (if x < 0 then 1 else 0)

/-- Mirrors the C cast `(int)q` on a float: truncation toward zero. -/
def c_int (q : ℚ) : ℤ := if 0 ≤ q then ⌊q⌋ else ⌈q⌉

/-- Conversion of a C `int` value to `unsigned` (32-bit), as in `(unsigned)x`. -/
def to_u32 (x : ℤ) : ℕ := (x % 4294967296).toNat

/-- Reinterpretation of a 32-bit unsigned value as a C `int` (two's complement). -/
def of_i32 (n : ℕ) : ℤ := if n < 2147483648 then (n : ℤ) else (n : ℤ) - 4294967296

/-- Bitwise `&` of two C `int` values (32-bit two's complement semantics). -/
def int_and (a b : ℤ) : ℤ := of_i32 (Nat.land (to_u32 a) (to_u32 b))

/-- Mirrors `inv_abs`: `1.0f / (fabsf(v) + 1e-20f)`.  The `1e-20f` addend only
serves to avoid dividing by exact zero: for every nonzero float magnitude that
the ray caster feeds in, adding `1e-20` is absorbed by float rounding, so the
rational idealization is the exact reciprocal for `v ≠ 0` and the same huge
finite value `1e20` at `v = 0`. -/
def inv_abs (v : ℚ) : ℚ := if v = 0 then 10 ^ 20 else 1 / |v|

/-- Mirrors `dim_color`: dims red/blue and green channels by `factor/256`,
forcing full alpha. -/
def dim_color (color factor : ℕ) : ℕ :=
  let br := ((color &&& 0xFF00FF) * factor) >>> 8
  let g := ((color &&& 0x00FF00) * factor) >>> 8
  0xFF000000 ||| (br &&& 0xFF00FF) ||| (g &&& 0x00FF00)

/-- Mirrors the `TileType` enum. -/
inductive TileType
  | empty
  | floor
  | wall
  | door
  | decor
deriving DecidableEq

/-- Mirrors the `Tile` struct.  `width`/`height` are C `int`s; the pixel buffer
is a flat row-major list of packed ARGB words. -/
structure Tile where
  id : ℕ
  width : ℤ
  height : ℤ
  pixels : List ℕ
  type : TileType
deriving DecidableEq

/-- Mirrors `struct Map`.  `tiles` is `none` when the C pointer is `NULL`
(the failure state), otherwise the row-major grid of cell entries, each
either `none` (a null cell pointer, i.e. an unresolved id) or a tile. -/
structure Map where
  width : ℕ
  height : ℕ
  tiles : Option (List (Option Tile))
deriving DecidableEq

/-- Mirrors `get_tile`: the bounds check is the C idiom
`(unsigned)x >= m->width || (unsigned)y >= m->height` (so negative
coordinates wrap to huge unsigned values and are rejected); in bounds, the
row-major cell entry is returned (which may itself be a null cell). -/
def get_tile (m : Map) (x y : ℤ) : Option Tile :=
  if to_u32 x ≥ m.width ∨ to_u32 y ≥ m.height then none
  else
    match m.tiles with
    | none => none
    | some arr => arr.getD (y.toNat * m.width + x.toNat) none

/-- Mirrors `is_solid`: `!t || t->type == TILE_TYPE_WALL`. -/
def is_solid (m : Map) (x y : ℤ) : Bool :=
  match get_tile m x y with
  | none => true
  | some t => t.type == TileType.wall

/-- Mirrors the `id_lut` construction inside `load_tiles`: the manifest entries
are processed in order and each tile is stored in the direct-index table only
under the guard `id < MAX_TILE_ID` (note: strict, line 139 of `main.c`).
`Tile.id` carries the manifest id, as in `t->id = id`. -/
def load_tiles_lut (entries : List Tile) : ℕ → Option Tile :=
  entries.foldl
    (fun lut t =>
      if t.id < MAX_TILE_ID then (fun i => if i = t.id then some t else lut i) else lut)
    (fun _ => none)

/-- Mirrors `get_tile_by_id`: `(id <= MAX_TILE_ID) ? id_lut[id] : NULL`. -/
def get_tile_by_id (lut : ℕ → Option Tile) (id : ℕ) : Option Tile :=
  if id ≤ MAX_TILE_ID then lut id else none

/-- Mirrors `load_map`.  The text file is abstracted to the stream of numbers
that `fscanf` successfully parses (`none` models a file that cannot be
opened): the first two tokens are the `%zu` dimensions, the rest the `%x`
cell ids.  A missing token makes the corresponding `fscanf` fail, exactly as
in the C control flow: note that a header with only one token still stores
that token into `map.width` before the parse of the second fails.  `calloc`
is assumed to succeed. -/
def load_map (lut : ℕ → Option Tile) (file : Option (List ℕ)) : Map :=
  match file with
  | none => ⟨0, 0, none⟩
  | some [] => ⟨0, 0, none⟩
  | some [w] => ⟨w, 0, none⟩
  | some (w :: h :: rest) =>
    if w = 0 ∨ h = 0 then ⟨w, h, none⟩
    else if rest.length < w * h then ⟨0, 0, none⟩
    else ⟨w, h, some ((rest.take (w * h)).map (fun id => get_tile_by_id lut id))⟩

/-- Mirrors the `Camera` struct. -/
structure Camera where
  pos_x : ℚ
  pos_y : ℚ
  dir_x : ℚ
  dir_y : ℚ
  plane_x : ℚ
  plane_y : ℚ
deriving DecidableEq

/-- Mirrors `rotate_camera`, with `cosf rad` and `sinf rad` supplied as the
pair `(c, s)`; theorems constrain them to lie on the unit circle
(`c ^ 2 + s ^ 2 = 1`), the defining property of a cosine/sine pair. -/
def rotate_camera (camera : Camera) (c s : ℚ) : Camera :=
  { camera with
    dir_x := camera.dir_x * c - camera.dir_y * s
    dir_y := camera.dir_x * s + camera.dir_y * c
    plane_x := camera.plane_x * c - camera.plane_y * s
    plane_y := camera.plane_x * s + camera.plane_y * c }

/-- A finite sequence of `rotate_camera` calls. -/
def rotate_many (camera : Camera) (angles : List (ℚ × ℚ)) : Camera :=
  angles.foldl (fun cam p => rotate_camera cam p.1 p.2) camera

/-- Mirrors the body of one micro-step of `move_camera` (lines 273-284):
the X displacement is tested and committed first, then the Y displacement
using the already-updated X. -/
def move_step (m : Map) (dx dy px py step : ℚ) : ℚ × ℚ :=
  let nx := px + dx * step
  let px1 := if is_solid m ⌊nx + (sgnf dx : ℚ) * CAMERA_RADIUS⌋ ⌊py⌋ then px else nx
  let ny := py + dy * step
  let py1 := if is_solid m ⌊px1⌋ ⌊ny + (sgnf dy : ℚ) * CAMERA_RADIUS⌋ then py else ny
  (px1, py1)

/-- Mirrors the micro-step loop of `move_camera`:
`while (remaining > 1e-6f && max_iter--)`, with `fuel` the remaining
iteration budget (64 at the top-level call). -/
def move_loop (m : Map) (dx dy : ℚ) : ℕ → ℚ → ℚ → ℚ → ℚ × ℚ
  | 0, _, px, py => (px, py)
  | fuel + 1, remaining, px, py =>
    if remaining > EPS6 then
      let step := if remaining > MAX_STEP then MAX_STEP else remaining
      let pq := move_step m dx dy px py step
      move_loop m dx dy fuel (remaining - step) pq.1 pq.2
    else (px, py)

/-- Mirrors `move_camera`.  `len` stands for `hypotf(dir_x, dir_y)`; it is an
explicit argument because the Euclidean norm of a rational vector is
irrational in general, and theorems pin it down by
`0 ≤ len ∧ len ^ 2 = dir_x ^ 2 + dir_y ^ 2`. -/
def move_camera (m : Map) (cam : Camera) (dir_x dir_y speed len : ℚ) : Camera :=
  let remaining := |speed|
  let dx0 := if speed < 0 then -dir_x else dir_x
  let dy0 := if speed < 0 then -dir_y else dir_y
  if len = 0 then cam
  else
    let pq := move_loop m (dx0 / len) (dy0 / len) 64 remaining cam.pos_x cam.pos_y
    { cam with pos_x := pq.1, pos_y := pq.2 }

/-- Decides whether every solidity check performed by `move_loop` (on the same
map, direction, remaining distance and start position) passes, i.e. whether
the move never touches a solid cell.  When it holds, every micro-step commits
both axis updates. -/
def move_clear (m : Map) (dx dy : ℚ) : ℕ → ℚ → ℚ → ℚ → Bool
  | 0, _, _, _ => true
  | fuel + 1, remaining, px, py =>
    if remaining > EPS6 then
      let step := if remaining > MAX_STEP then MAX_STEP else remaining
      let nx := px + dx * step
      let ny := py + dy * step
      !is_solid m ⌊nx + (sgnf dx : ℚ) * CAMERA_RADIUS⌋ ⌊py⌋ &&
        (!is_solid m ⌊nx⌋ ⌊ny + (sgnf dy : ℚ) * CAMERA_RADIUS⌋ &&
          move_clear m dx dy fuel (remaining - step) nx ny)
    else true

/-- The total distance the micro-step loop advances along the (unit) movement
direction, as a function of the remaining distance and the fuel. -/
def travel : ℕ → ℚ → ℚ
  | 0, _ => 0
  | fuel + 1, remaining =>
    if remaining > EPS6 then
      let step := if remaining > MAX_STEP then MAX_STEP else remaining
      step + travel fuel (remaining - step)
    else 0

/-- Mirrors `generate_camera_lut`: `lut[i] = (2.0f * i / SCREEN_WIDTH) - 1.0f`. -/
def camera_lut (i : ℕ) : ℚ := 2 * (i : ℚ) / (SCREEN_WIDTH : ℚ) - 1

/-- Mirrors the DDA step loop of `render_raycast` (lines 455-473): advance the
axis with the smaller accumulated side distance, record the hit side, query
the cell after the step, and stop on a Wall-kind tile.  Returns the hit tile,
the hit side, and the accumulated side distances at the moment of the hit, or
`none` when the fuel (the `MAP_MAX_STEPS` ceiling) runs out. -/
def dda (m : Map) (step_x step_y : ℤ) (ddx ddy : ℚ) :
    ℕ → ℚ → ℚ → ℤ → ℤ → Option (Tile × ℕ × ℚ × ℚ)
  | 0, _, _, _, _ => none
  | fuel + 1, sdx, sdy, mx, my =>
    if sdx < sdy then
      match get_tile m (mx + step_x) my with
      | some t =>
        if t.type == TileType.wall then some (t, 0, sdx + ddx, sdy)
        else dda m step_x step_y ddx ddy fuel (sdx + ddx) sdy (mx + step_x) my
      | none => dda m step_x step_y ddx ddy fuel (sdx + ddx) sdy (mx + step_x) my
    else
      match get_tile m mx (my + step_y) with
      | some t =>
        if t.type == TileType.wall then some (t, 1, sdx, sdy + ddy)
        else dda m step_x step_y ddx ddy fuel sdx (sdy + ddy) mx (my + step_y)
      | none => dda m step_x step_y ddx ddy fuel sdx (sdy + ddy) mx (my + step_y)

/-- Mirrors the per-column ray set-up and hit post-processing of
`render_raycast` (lines 432-484): initial cell from the truncating `(int)`
casts, per-axis delta and initial side distances, the DDA march, and on a hit
the perpendicular wall distance (undoing the final over-step) clamped below
by `1e-6f`.  Returns `none` when no wall is hit within `MAP_MAX_STEPS`. -/
def cast_ray (m : Map) (pos_x pos_y rdx rdy : ℚ) : Option (Tile × ℕ × ℚ) :=
  let mx := c_int pos_x
  let my := c_int pos_y
  let ddx := inv_abs rdx
  let ddy := inv_abs rdy
  let sdx := if rdx < 0 then (pos_x - mx) * ddx else ((mx : ℚ) + 1 - pos_x) * ddx
  let sdy := if rdy < 0 then (pos_y - my) * ddy else ((my : ℚ) + 1 - pos_y) * ddy
  match dda m (sgnf rdx) (sgnf rdy) ddx ddy MAP_MAX_STEPS sdx sdy mx my with
  | none => none
  | some (t, side, fsdx, fsdy) =>
    let perp := if side = 0 then fsdx - ddx else fsdy - ddy
    some (t, side, if perp < EPS6 then EPS6 else perp)

/-- Mirrors the unmirrored horizontal texel column (lines 486-490): the
fractional world coordinate along the non-stepped axis at the hit point,
scaled by the tile width and masked with `width - 1`. -/
def wall_tex_base (t : Tile) (side : ℕ) (pos_x pos_y rdx rdy perp : ℚ) : ℤ :=
  let wx := if side = 0 then pos_y + perp * rdy else pos_x + perp * rdx
  int_and (c_int ((wx - ⌊wx⌋) * t.width)) (t.width - 1)

/-- Mirrors the full horizontal texel column computation including the mirror
step (lines 486-493): `tex_x` is flipped to `width - 1 - tex_x` exactly when
`(hit_side == 0 && ray_dir_x > 0) || (hit_side == 1 && ray_dir_y < 0)`. -/
def wall_tex_x (t : Tile) (side : ℕ) (pos_x pos_y rdx rdy perp : ℚ) : ℤ :=
  if (side = 0 ∧ 0 < rdx) ∨ (side = 1 ∧ rdy < 0) then
    t.width - 1 - wall_tex_base t side pos_x pos_y rdx rdy perp
  else wall_tex_base t side pos_x pos_y rdx rdy perp

/-- Modelled from the spec's words (section 4.4): same as `wall_tex_x` except
that the mirror is applied "when the ray travels in the positive direction on
the axis that was hit", i.e. on a Y-side hit when `ray_dir_y` is positive.
Kept for comparison against the source definition. -/
def wall_tex_x_claimed (t : Tile) (side : ℕ) (pos_x pos_y rdx rdy perp : ℚ) : ℤ :=
  if (side = 0 ∧ 0 < rdx) ∨ (side = 1 ∧ 0 < rdy) then
    t.width - 1 - wall_tex_base t side pos_x pos_y rdx rdy perp
  else wall_tex_base t side pos_x pos_y rdx rdy perp

/-- Mirrors `vertical_line`: clamps the row range to the screen and paints the
packed color into column `x` of the frame buffer.  The frame buffer is
modelled as a function from (row, column) to the packed ARGB word whose bytes
the C code writes. -/
def vertical_line (fb : ℤ → ℤ → ℕ) (x y0 y1 : ℤ) (color : ℕ) : ℤ → ℤ → ℕ :=
  fun yy xx =>
    if xx = x ∧ max 0 y0 ≤ yy ∧ yy ≤ min ((SCREEN_HEIGHT : ℤ) - 1) y1 then color
    else fb yy xx

/-- Mirrors the per-row wall texel fetch of the wall-drawing loop
(lines 499-511), including the fixed-point vertical mapping, the Y-side
dimming, and the forced `0xFF` alpha of the written pixel. -/
def wall_pixel (t : Tile) (side : ℕ) (tex_x line_height yy : ℤ) : ℕ :=
  let d := yy * 256 - (SCREEN_HEIGHT : ℤ) * 128 + line_height * 128
  let tex_y := Int.tdiv (Int.tdiv (d * t.height) line_height) 256
  let color := t.pixels.getD (tex_y * t.width + tex_x).toNat 0
  let color := if side ≠ 0 then dim_color color WALL_DIM_FACTOR else color
  0xFF000000 ||| (color &&& 0xFFFFFF)

/-- Mirrors the wall-rendering pass of `render_raycast` for one screen column
`x` (lines 426-513): build the ray from the camera and the column lookup
table, cast it, and either paint the whole column with `SKY_COLOR` (the
no-hit fallback, line 476) or draw the textured wall slice clipped to the
screen. -/
def render_column (m : Map) (cam : Camera) (x : ℕ) (fb : ℤ → ℤ → ℕ) : ℤ → ℤ → ℕ :=
  match cast_ray m cam.pos_x cam.pos_y (cam.dir_x + cam.plane_x * camera_lut x)
      (cam.dir_y + cam.plane_y * camera_lut x) with
  | none => vertical_line fb x 0 ((SCREEN_HEIGHT : ℤ) - 1) SKY_COLOR
  | some (tile, side, perp) =>
    let tex_x := wall_tex_x tile side cam.pos_x cam.pos_y
      (cam.dir_x + cam.plane_x * camera_lut x) (cam.dir_y + cam.plane_y * camera_lut x) perp
    let line_height := c_int ((SCREEN_HEIGHT : ℚ) / perp)
    let draw_start := max 0 (Int.tdiv ((SCREEN_HEIGHT : ℤ) - line_height) 2)
    let draw_end := min ((SCREEN_HEIGHT : ℤ) - 1) (Int.tdiv ((SCREEN_HEIGHT : ℤ) + line_height) 2)
    fun yy xx =>
      if xx = (x : ℤ) ∧ draw_start ≤ yy ∧ yy ≤ draw_end then
        wall_pixel tile side tex_x line_height yy
      else fb yy xx

/-- Mirrors the floor/ceiling row loop bounds of `render_raycast`: the loop
starts at `y = SCREEN_HEIGHT / 2` (C integer division) and runs while
`y < SCREEN_HEIGHT`. -/
def fc_first_row : ℤ := (SCREEN_HEIGHT : ℤ) / 2

/-- Mirrors `p = (float)(y - SCREEN_HEIGHT / 2.0f)`, the divisor of the
row-distance computation. -/
def fc_p (y : ℤ) : ℚ := (y : ℚ) - (SCREEN_HEIGHT : ℚ) / 2

/-- Mirrors `row_dist = camera_z / p` with `camera_z = 0.5f * SCREEN_HEIGHT`,
made partial: `none` marks the division by an exactly-zero divisor that the
C code performs unguarded at the horizon row. -/
def fc_row_dist (y : ℤ) : Option ℚ :=
  if fc_p y = 0 then none else some ((SCREEN_HEIGHT : ℚ) / 2 / fc_p y)

/-- Mirrors the per-column body of the floor/ceiling pass (lines 390-421) for
one sampled world position: the cell is resolved from the floored world
coordinate, non-Floor cells are skipped (`some none`: defined, nothing
drawn), and on a Floor cell the floor texel is fetched and the ceiling texel
is fetched from `get_tile_by_id CEILING_TILE_ID` with no null check — the
outer `none` marks that null dereference (undefined behavior).  As in the C
code, the world coordinate is advanced by the per-column step before the
texel coordinates are derived from it. -/
def fc_body (lut : ℕ → Option Tile) (m : Map) (floor_x floor_y step_x step_y : ℚ) :
    Option (Option (ℕ × ℕ)) :=
  let map_x : ℤ := ⌊floor_x⌋
  let map_y : ℤ := ⌊floor_y⌋
  let fx := floor_x + step_x
  let fy := floor_y + step_y
  match get_tile m map_x map_y with
  | none => some none
  | some ft =>
    if ft.type == TileType.floor then
      let tex_x := int_and (c_int ((fx - map_x) * ft.width)) (ft.width - 1)
      let tex_y := int_and (c_int ((fy - map_y) * ft.height)) (ft.height - 1)
      let fcolor := ft.pixels.getD (tex_y * ft.width + tex_x).toNat 0
      match get_tile_by_id lut CEILING_TILE_ID with
      | none => none
      | some ct =>
        let ccolor := (ct.pixels.getD (tex_y * ct.width + tex_x).toNat 0 >>> 1) &&& 8355711
        some (some (fcolor, ccolor))
    else some none

/-- A concrete Wall-kind tile (2×2 texture) used in concrete scenarios. -/
def wallTile : Tile := ⟨0x01, 2, 2, [10, 11, 12, 13], TileType.wall⟩

/-- A concrete Floor-kind tile (2×2 texture) used in concrete scenarios. -/
def floorTile : Tile := ⟨0x02, 2, 2, [20, 21, 22, 23], TileType.floor⟩

/-- A concrete Wall-kind tile with a 4×4 texture. -/
def texTile : Tile := ⟨0x03, 4, 4, List.replicate 16 0, TileType.wall⟩

/-- The 3×3 map of the DDA scenario: all Wall tiles except the center cell. -/
def map3x3 : Map :=
  ⟨3, 3, some [some wallTile, some wallTile, some wallTile,
               some wallTile, none, some wallTile,
               some wallTile, some wallTile, some wallTile]⟩

/-- An 8×8 map whose every cell is a Floor tile: no in-bounds cell is solid. -/
def openMap : Map := ⟨8, 8, some (List.replicate 64 (some floorTile))⟩

/-- A 1×1 all-floor map: a ray marching away from cell (0,0) never hits a
Wall tile, so every column misses. -/
def missMap : Map := ⟨1, 1, some [some floorTile]⟩

/-- A 1×1 map whose only cell stores a null tile pointer (an unresolved id). -/
def nullCellMap : Map := ⟨1, 1, some [none]⟩

/-- Camera at the center of `map3x3` / `missMap`-style scenes. -/
def camCenter : Camera := ⟨3/2, 3/2, 1, 0, 0, FOV_FACTOR⟩

/-- Camera inside `openMap` at (2.5, 2.5), facing +X. -/
def camOpen : Camera := ⟨5/2, 5/2, 1, 0, 0, FOV_FACTOR⟩

/-- Camera inside `missMap` at (0.5, 0.5), facing +X. -/
def camMiss : Camera := ⟨1/2, 1/2, 1, 0, 0, FOV_FACTOR⟩

/-- A 2×1 map with a wall at (0,0) and a null cell at (1,0). -/
def edgeMap : Map := ⟨2, 1, some [some wallTile, none]⟩

/-- A tile whose manifest id is the maximum representable id `0xFF`. -/
def tile255 : Tile := ⟨0xFF, 2, 2, [0, 0, 0, 0], TileType.wall⟩

/-- A tile whose manifest id is `0x41` (the ceiling tile id). -/
def tile65 : Tile := ⟨0x41, 2, 2, [30, 31, 32, 33], TileType.floor⟩

/-! ## Helper lemmas -/

/-- One rotation by a unit-circle pair preserves the squared norm of the
direction vector. -/
theorem rotate_camera_dir_norm (cam : Camera) (c s : ℚ) (hcs : c ^ 2 + s ^ 2 = 1)
    (hdir : cam.dir_x ^ 2 + cam.dir_y ^ 2 = 1) :
    (rotate_camera cam c s).dir_x ^ 2 + (rotate_camera cam c s).dir_y ^ 2 = 1 := by
  simp only [rotate_camera]
  linear_combination (cam.dir_x ^ 2 + cam.dir_y ^ 2) * hcs + hdir

/-- One rotation by a unit-circle pair preserves orthogonality of direction
and plane. -/
theorem rotate_camera_ortho (cam : Camera) (c s : ℚ)
    (hortho : cam.dir_x * cam.plane_x + cam.dir_y * cam.plane_y = 0) :
    (rotate_camera cam c s).dir_x * (rotate_camera cam c s).plane_x +
      (rotate_camera cam c s).dir_y * (rotate_camera cam c s).plane_y = 0 := by
  simp only [rotate_camera]
  linear_combination (c ^ 2 + s ^ 2) * hortho

/-- A micro-step whose two solidity checks both fail commits both axis
displacements in full. -/
theorem move_step_clear (m : Map) (dx dy px py step : ℚ)
    (h1 : is_solid m ⌊px + dx * step + (sgnf dx : ℚ) * CAMERA_RADIUS⌋ ⌊py⌋ = false)
    (h2 : is_solid m ⌊px + dx * step⌋ ⌊py + dy * step + (sgnf dy : ℚ) * CAMERA_RADIUS⌋ = false) :
    move_step m dx dy px py step = (px + dx * step, py + dy * step) := by
  simp only [move_step]
  rw [if_neg (by simp [h1])]
  rw [if_neg (by simp [h2])]

/-- When every solidity check passes, the micro-step loop moves the position
by exactly `travel fuel r` along the (already normalized) direction. -/
theorem move_loop_of_clear (m : Map) (dx dy : ℚ) :
    ∀ (fuel : ℕ) (r px py : ℚ), move_clear m dx dy fuel r px py = true →
      move_loop m dx dy fuel r px py = (px + dx * travel fuel r, py + dy * travel fuel r) := by
  intro fuel
  induction fuel with
  | zero =>
      intro r px py _
      simp [move_loop, travel]
  | succ n ih =>
      intro r px py hclear
      simp only [move_clear] at hclear
      simp only [move_loop, travel]
      by_cases hr : r > EPS6
      · rw [if_pos hr] at hclear ⊢
        rw [if_pos hr]
        simp only [Bool.and_eq_true, Bool.not_eq_true'] at hclear
        obtain ⟨h1, h2, h3⟩ := hclear
        rw [move_step_clear m dx dy px py _ h1 h2]
        rw [ih _ _ _ h3]
        refine Prod.ext ?_ ?_ <;> dsimp only <;> ring
      · rw [if_neg hr] at hclear ⊢
        rw [if_neg hr]
        simp [Prod.ext_iff]

/-- The loop advances the full remaining distance whenever that distance fits
into the fuel budget and never leaves a positive remainder at most `EPS6`
(the `remaining > 1e-6f` loop condition would silently drop such a
remainder). -/
theorem travel_exact : ∀ (fuel : ℕ) (r : ℚ), 0 ≤ r → r ≤ fuel * MAX_STEP →
    (∀ k : ℕ, k ≤ fuel → ¬(0 < r - k * MAX_STEP ∧ r - k * MAX_STEP ≤ EPS6)) →
    travel fuel r = r := by
  intro fuel
  induction fuel with
  | zero =>
      intro r h0 hle _
      have hr0 : r = 0 := le_antisymm (by simpa using hle) h0
      simp [travel, hr0]
  | succ n ih =>
      intro r h0 hle hfrac
      by_cases hr : r > EPS6
      · simp only [travel]
        rw [if_pos hr]
        by_cases hs : r > MAX_STEP
        · rw [if_pos hs]
          have hrec : travel n (r - MAX_STEP) = r - MAX_STEP := by
            refine ih (r - MAX_STEP) (by linarith) ?_ ?_
            · push_cast at hle ⊢
              linarith
            · intro k hk hcon
              refine hfrac (k + 1) (by omega) ?_
              push_cast
              constructor
              · have := hcon.1
                linarith [this]
              · have := hcon.2
                linarith [this]
          rw [hrec]
          ring
        · rw [if_neg hs]
          rw [sub_self]
          have hz : travel n 0 = 0 := by
            cases n with
            | zero => rfl
            | succ k =>
                simp only [travel]
                rw [if_neg (by norm_num [EPS6])]
          rw [hz]
          ring
      · have hr0 : r = 0 := by
          by_contra hne
          have hpos : 0 < r := lt_of_le_of_ne h0 (Ne.symm hne)
          refine hfrac 0 (Nat.zero_le _) ?_
          push_cast
          constructor
          · simpa using hpos
          · simpa using le_of_not_lt hr
        subst hr0
        simp only [travel]
        rw [if_neg hr]

/-! ## Claim theorems -/

/-- C2: for every camera whose direction is a unit vector and whose plane is
orthogonal to it, after any finite sequence of rotations (each given by a
cosine/sine pair on the unit circle) the direction is still a unit vector and
still orthogonal to the plane, because one shared rotation matrix is applied
to both vectors. -/
theorem c2_rotate_preserves_invariants (cam : Camera) (angles : List (ℚ × ℚ))
    (hangles : ∀ p ∈ angles, p.1 ^ 2 + p.2 ^ 2 = 1)
    (hdir : cam.dir_x ^ 2 + cam.dir_y ^ 2 = 1)
    (hortho : cam.dir_x * cam.plane_x + cam.dir_y * cam.plane_y = 0) :
    (rotate_many cam angles).dir_x ^ 2 + (rotate_many cam angles).dir_y ^ 2 = 1 ∧
      (rotate_many cam angles).dir_x * (rotate_many cam angles).plane_x +
        (rotate_many cam angles).dir_y * (rotate_many cam angles).plane_y = 0 := by
  induction angles generalizing cam with
  | nil =>
      simp only [rotate_many, List.foldl_nil]
      exact ⟨hdir, hortho⟩
  | cons p rest ih =>
      have hp : p.1 ^ 2 + p.2 ^ 2 = 1 := hangles p (List.mem_cons_self p rest)
      have hrm : rotate_many cam (p :: rest) = rotate_many (rotate_camera cam p.1 p.2) rest := by
        simp [rotate_many]
      rw [hrm]
      exact ih (rotate_camera cam p.1 p.2)
        (fun q hq => hangles q (List.mem_cons_of_mem p hq))
        (rotate_camera_dir_norm cam p.1 p.2 hp hdir)
        (rotate_camera_ortho cam p.1 p.2 hortho)

/-- C2 witness: the invariants hold concretely after rotating the initial
camera by 90° (cos 0, sin 1) and then by the (3/5, 4/5) unit-circle pair. -/
theorem c2_rotate_preserves_invariants_witness :
    (rotate_many ⟨2, 2, 1, 0, 0, FOV_FACTOR⟩ [(0, 1), (3/5, 4/5)]).dir_x ^ 2 +
        (rotate_many ⟨2, 2, 1, 0, 0, FOV_FACTOR⟩ [(0, 1), (3/5, 4/5)]).dir_y ^ 2 = 1 ∧
      (rotate_many ⟨2, 2, 1, 0, 0, FOV_FACTOR⟩ [(0, 1), (3/5, 4/5)]).dir_x *
          (rotate_many ⟨2, 2, 1, 0, 0, FOV_FACTOR⟩ [(0, 1), (3/5, 4/5)]).plane_x +
        (rotate_many ⟨2, 2, 1, 0, 0, FOV_FACTOR⟩ [(0, 1), (3/5, 4/5)]).dir_y *
          (rotate_many ⟨2, 2, 1, 0, 0, FOV_FACTOR⟩ [(0, 1), (3/5, 4/5)]).plane_y = 0 :=
  c2_rotate_preserves_invariants ⟨2, 2, 1, 0, 0, FOV_FACTOR⟩ [(0, 1), (3/5, 4/5)]
    (by with_unfolding_all decide) (by norm_num) (by norm_num)

/-- C3: the floor/ceiling pass is NOT guarded at the horizon: its first
processed row is exactly `y = SCREEN_HEIGHT / 2` (which lies in the loop
range), and there the divisor `p = y - SCREEN_HEIGHT/2` is exactly zero, so
`camera_z / p` is a division by zero (modelled as `none`). -/
theorem c3_horizon_row_divides_by_zero :
    fc_first_row < (SCREEN_HEIGHT : ℤ) ∧ fc_p fc_first_row = 0 ∧
      fc_row_dist fc_first_row = none := by
  with_unfolding_all decide

/-- C4 counterexample: on a 1×1 map whose single cell holds a null tile
pointer (an unresolved id), the cell (0,0) is in bounds and resolves to no
tile, yet `is_solid` reports it as solid — contradicting the claim that an
in-bounds cell holding no tile is not solid. -/
theorem c4_null_cell_is_solid_counterexample :
    is_solid nullCellMap 0 0 = true ∧ get_tile nullCellMap 0 0 = none ∧
      (0 : ℤ) < (nullCellMap.width : ℤ) ∧ (0 : ℤ) < (nullCellMap.height : ℤ) := by
  with_unfolding_all decide

/-- C4 (amended): for C-`int`-ranged coordinates and realistically sized maps,
`is_solid` returns true exactly when the coordinate is out of
`[0,width)×[0,height)` (including negative coordinates), or the cell holds no
tile (out of bounds or a null cell), or the cell's tile is Wall-kind. -/
theorem c4_is_solid_iff (m : Map) (x y : ℤ)
    (hw : m.width ≤ 2 ^ 31) (hh : m.height ≤ 2 ^ 31)
    (hx1 : -(2 ^ 31) ≤ x) (hx2 : x < 2 ^ 31) (hy1 : -(2 ^ 31) ≤ y) (hy2 : y < 2 ^ 31) :
    is_solid m x y = true ↔
      ((x < 0 ∨ y < 0 ∨ (m.width : ℤ) ≤ x ∨ (m.height : ℤ) ≤ y) ∨
        get_tile m x y = none ∨
        ∃ t, get_tile m x y = some t ∧ t.type = TileType.wall) := by
  have hbound : (to_u32 x ≥ m.width ∨ to_u32 y ≥ m.height) ↔
      (x < 0 ∨ y < 0 ∨ (m.width : ℤ) ≤ x ∨ (m.height : ℤ) ≤ y) := by
    unfold to_u32
    omega
  unfold is_solid
  rcases hget : get_tile m x y with _ | t
  · simp [hget]
  · have hin : ¬(to_u32 x ≥ m.width ∨ to_u32 y ≥ m.height) := by
      intro hcon
      unfold get_tile at hget
      rw [if_pos hcon] at hget
      exact Option.noConfusion hget
    simp only [hget]
    constructor
    · intro hwall
      exact Or.inr (Or.inr ⟨t, rfl, by simpa using hwall⟩)
    · rintro (hoob | hnone | ⟨t2, ht2, htty⟩)
      · exact absurd (hbound.mpr hoob) hin
      · exact Option.noConfusion hnone
      · obtain rfl : t = t2 := Option.some.inj ht2
        simpa using htty

/-- C4 witness: the characterization instantiated on a concrete 2×1 map at
the wall cell (0,0). -/
theorem c4_is_solid_iff_witness :
    is_solid edgeMap 0 0 = true ↔
      (((0 : ℤ) < 0 ∨ (0 : ℤ) < 0 ∨ (edgeMap.width : ℤ) ≤ 0 ∨ (edgeMap.height : ℤ) ≤ 0) ∨
        get_tile edgeMap 0 0 = none ∨
        ∃ t, get_tile edgeMap 0 0 = some t ∧ t.type = TileType.wall) :=
  c4_is_solid_iff edgeMap 0 0 (by norm_num [edgeMap]) (by norm_num [edgeMap])
    (by norm_num) (by norm_num) (by norm_num) (by norm_num)

/-- C6: `load_tiles` only fills the lookup table under the strict guard
`id < MAX_TILE_ID`, so a manifest tile with the maximum representable id
`0xFF` is loaded but unreachable: `get_tile_by_id 0xFF` returns `none` even
though the tile was registered from the manifest, while smaller ids (here
`0x41`) are returned correctly; ids above `MAX_TILE_ID` also return `none`. -/
theorem c6_lut_drops_max_id :
    get_tile_by_id (load_tiles_lut [tile65, tile255]) 0x41 = some tile65 ∧
      get_tile_by_id (load_tiles_lut [tile65, tile255]) 0xFF = none ∧
      get_tile_by_id (load_tiles_lut [tile65, tile255]) 0x100 = none ∧
      tile255.id = 0xFF ∧ tile255.id ≤ MAX_TILE_ID := by
  with_unfolding_all decide

/-- C7 counterexample: on a Y-side hit with a positive `ray_dir_y`, the code
does not mirror the texel column (it mirrors on negative `ray_dir_y`), while
the claim's rule ("mirror when the direction component along the hit axis is
positive") demands the mirrored column; the two disagree on this input. -/
theorem c7_mirror_counterexample :
    wall_tex_x texTile 1 (1/4) 0 0 1 1 = 1 ∧
      wall_tex_x_claimed texTile 1 (1/4) 0 0 1 1 = 2 ∧
      wall_tex_x texTile 1 (1/4) 0 0 1 1 ≠ wall_tex_x_claimed texTile 1 (1/4) 0 0 1 1 := by
  with_unfolding_all decide

/-- C7 (amended): whenever mirroring changes the column, the mirrored column
`width - 1 - col` is produced exactly when the hit is an X-side hit with
positive `ray_dir_x`, or a Y-side hit with NEGATIVE `ray_dir_y`. -/
theorem c7_mirror_condition (t : Tile) (side : ℕ) (pos_x pos_y rdx rdy perp : ℚ)
    (hdiff : t.width - 1 - wall_tex_base t side pos_x pos_y rdx rdy perp ≠
      wall_tex_base t side pos_x pos_y rdx rdy perp) :
    (wall_tex_x t side pos_x pos_y rdx rdy perp =
        t.width - 1 - wall_tex_base t side pos_x pos_y rdx rdy perp) ↔
      ((side = 0 ∧ 0 < rdx) ∨ (side = 1 ∧ rdy < 0)) := by
  unfold wall_tex_x
  by_cases hc : (side = 0 ∧ 0 < rdx) ∨ (side = 1 ∧ rdy < 0)
  · rw [if_pos hc]
    exact iff_of_true rfl hc
  · rw [if_neg hc]
    exact iff_of_false (fun h => hdiff h.symm) hc

/-- C7 witness: the mirror characterization instantiated on an X-side hit
with positive `ray_dir_x`, where the mirror changes the column. -/
theorem c7_mirror_condition_witness :
    (wall_tex_x texTile 0 0 (1/4) 1 0 1 =
        texTile.width - 1 - wall_tex_base texTile 0 0 (1/4) 1 0 1) ↔
      ((0 = 0 ∧ (0 : ℚ) < 1) ∨ (0 = 1 ∧ (0 : ℚ) < 0)) :=
  c7_mirror_condition texTile 0 0 (1/4) 1 0 1 (by with_unfolding_all decide)

/-- C9 counterexample: a map file whose header holds only one token (`"5"`)
makes the height parse fail, but the already-stored width survives: the
returned map is `{width 5, height 0, tiles NULL}`, not the all-zero map the
claim promises. -/
theorem c9_partial_header_counterexample :
    load_map (fun _ => none) (some [5]) = ⟨5, 0, none⟩ ∧
      (load_map (fun _ => none) (some [5])).width ≠ 0 := by
  with_unfolding_all decide

/-- C9 (amended): in every failure case `load_map` returns a map with no tile
grid; the dimensions are both zero for a missing file, an empty file, or
insufficient cell data, but a malformed header keeps the partially parsed
dimensions (width only, or a zero dimension pair) with the tile grid still
absent; and with enough data the load succeeds with a tile grid present. -/
theorem c9_load_map_failure_shapes (lut : ℕ → Option Tile) :
    load_map lut none = ⟨0, 0, none⟩ ∧
      load_map lut (some []) = ⟨0, 0, none⟩ ∧
      (∀ w : ℕ, load_map lut (some [w]) = ⟨w, 0, none⟩) ∧
      (∀ (w h : ℕ) (rest : List ℕ), w = 0 ∨ h = 0 →
        load_map lut (some (w :: h :: rest)) = ⟨w, h, none⟩) ∧
      (∀ (w h : ℕ) (rest : List ℕ), ¬(w = 0 ∨ h = 0) → rest.length < w * h →
        load_map lut (some (w :: h :: rest)) = ⟨0, 0, none⟩) ∧
      (∀ (w h : ℕ) (rest : List ℕ), ¬(w = 0 ∨ h = 0) → w * h ≤ rest.length →
        load_map lut (some (w :: h :: rest)) =
          ⟨w, h, some ((rest.take (w * h)).map (fun id => get_tile_by_id lut id))⟩) := by
  refine ⟨rfl, rfl, fun w => rfl, ?_, ?_, ?_⟩
  · intro w h rest hwh
    simp [load_map, hwh]
  · intro w h rest hwh hlen
    simp [load_map, hwh, hlen]
  · intro w h rest hwh hlen
    simp [load_map, hwh, Nat.not_lt.mpr hlen]

/-- C9 witness: the failure shapes instantiated on concrete files — a
one-token header, a zero-dimension header, and a truncated cell section. -/
theorem c9_load_map_failure_shapes_witness :
    load_map (fun _ => none) (some [7]) = ⟨7, 0, none⟩ ∧
      load_map (fun _ => none) (some [0, 9]) = ⟨0, 9, none⟩ ∧
      load_map (fun _ => none) (some [2, 2, 5]) = ⟨0, 0, none⟩ :=
  ⟨(c9_load_map_failure_shapes (fun _ => none)).2.2.1 7,
    (c9_load_map_failure_shapes (fun _ => none)).2.2.2.1 0 9 [] (Or.inl rfl),
    (c9_load_map_failure_shapes (fun _ => none)).2.2.2.2.1 2 2 [5] (by norm_num) (by norm_num)⟩

/-- C10: the per-column floor/ceiling body dereferences
`get_tile_by_id CEILING_TILE_ID` with no null check exactly when the sampled
cell resolves to a Floor-kind tile; it is free of that null dereference
(modelled as a `none` result) if and only if either the cell is not a Floor
tile or a tile with id `0x41` is registered in the lookup table. -/
theorem c10_ceiling_null_deref_iff (lut : ℕ → Option Tile) (m : Map)
    (floor_x floor_y step_x step_y : ℚ) :
    fc_body lut m floor_x floor_y step_x step_y = none ↔
      ((∃ ft, get_tile m ⌊floor_x⌋ ⌊floor_y⌋ = some ft ∧ ft.type = TileType.floor) ∧
        get_tile_by_id lut CEILING_TILE_ID = none) := by
  unfold fc_body
  rcases hget : get_tile m ⌊floor_x⌋ ⌊floor_y⌋ with _ | ft
  · simp [hget]
  · rcases hc : get_tile_by_id lut CEILING_TILE_ID with _ | ct
    · by_cases hty : ft.type = TileType.floor
      · simp [hget, hc, hty]
      · simp [hget, hc, hty]
    · by_cases hty : ft.type = TileType.floor
      · simp [hget, hc, hty]
      · simp [hget, hty]

/-- C1: on the 3×3 all-wall-except-center map with the camera at the exact
center of the center cell, the ray of the center screen column (whose lookup
table entry is exactly 0, so the plane contribution vanishes for every
plane vector) terminates with a wall hit at perpendicular distance exactly
1/2, with hit side 0 for a direction along the X axis and hit side 1 for a
direction along the Y axis. -/
theorem c1_dda_center_column (dx dy px py : ℚ)
    (hdir : (dx = 1 ∧ dy = 0) ∨ (dx = -1 ∧ dy = 0) ∨ (dx = 0 ∧ dy = 1) ∨ (dx = 0 ∧ dy = -1)) :
    cast_ray map3x3 (3/2) (3/2) (dx + px * camera_lut 600) (dy + py * camera_lut 600) =
      some (wallTile, if dy = 0 then 0 else 1, 1/2) := by
  have hlut : camera_lut 600 = 0 := by
    norm_num [camera_lut, SCREEN_WIDTH]
  rw [hlut]
  rcases hdir with ⟨h1, h2⟩ | ⟨h1, h2⟩ | ⟨h1, h2⟩ | ⟨h1, h2⟩ <;> subst h1 <;> subst h2 <;>
    simp only [mul_zero, add_zero] <;> with_unfolding_all decide

/-- C1 witness: the center-column hit instantiated with direction (+1, 0) and
the program's startup plane vector. -/
theorem c1_dda_center_column_witness :
    cast_ray map3x3 (3/2) (3/2) ((1 : ℚ) + 0 * camera_lut 600)
        ((0 : ℚ) + FOV_FACTOR * camera_lut 600) =
      some (wallTile, if (0 : ℚ) = 0 then 0 else 1, 1/2) :=
  c1_dda_center_column 1 0 0 FOV_FACTOR (Or.inl ⟨rfl, rfl⟩)

/-- C5 counterexample: on an all-floor map where no queried cell is solid,
one `move_camera` call with unit direction (1,0) and speed 4 moves the
camera by only 3.2 units (64 micro-steps of at most 0.05 each), not the
requested 4: the displacement is clamped, contradicting the claim. -/
theorem c5_clamped_displacement_counterexample :
    move_clear openMap 1 0 64 |(4 : ℚ)| camOpen.pos_x camOpen.pos_y = true ∧
      (move_camera openMap camOpen 1 0 4 1).pos_x = 57/10 ∧
      (move_camera openMap camOpen 1 0 4 1).pos_x ≠ camOpen.pos_x + 1 / 1 * |(4 : ℚ)| := by
  with_unfolding_all decide

/-- C5 (amended): a `move_camera` call on a path whose every solidity check
passes displaces the camera by exactly the normalized direction (negated for
negative speed) scaled by `|speed|` — hence repeated such calls accumulate
exactly — provided the requested distance fits the loop budget
(`|speed| ≤ 64 * MAX_STEP = 3.2`) and the remaining distance never lands in
the dead zone `(0, 1e-6]` where the loop exits early (in particular
`|speed| = 0` or `|speed| mod MAX_STEP` outside `(0, 1e-6]`). -/
theorem c5_move_exact_accumulation (m : Map) (cam : Camera) (dir_x dir_y speed len : ℚ)
    (hlen0 : 0 ≤ len) (hlen : len ^ 2 = dir_x ^ 2 + dir_y ^ 2) (hne : len ≠ 0)
    (hspeed : |speed| ≤ 64 * MAX_STEP)
    (hfrac : ∀ k : ℕ, k ≤ 64 → ¬(0 < |speed| - k * MAX_STEP ∧ |speed| - k * MAX_STEP ≤ EPS6))
    (hclear : move_clear m ((if speed < 0 then -dir_x else dir_x) / len)
        ((if speed < 0 then -dir_y else dir_y) / len) 64 |speed| cam.pos_x cam.pos_y = true) :
    (move_camera m cam dir_x dir_y speed len).pos_x =
        cam.pos_x + (if speed < 0 then -dir_x else dir_x) / len * |speed| ∧
      (move_camera m cam dir_x dir_y speed len).pos_y =
        cam.pos_y + (if speed < 0 then -dir_y else dir_y) / len * |speed| ∧
      ((if speed < 0 then -dir_x else dir_x) / len) ^ 2 +
        ((if speed < 0 then -dir_y else dir_y) / len) ^ 2 = 1 := by
  have hloop := move_loop_of_clear m ((if speed < 0 then -dir_x else dir_x) / len)
    ((if speed < 0 then -dir_y else dir_y) / len) 64 |speed| cam.pos_x cam.pos_y hclear
  have htrav : travel 64 |speed| = |speed| := by
    refine travel_exact 64 |speed| (abs_nonneg speed) (by push_cast; exact hspeed) ?_
    intro k hk
    exact hfrac k hk
  rw [htrav] at hloop
  unfold move_camera
  rw [if_neg hne]
  refine ⟨?_, ?_, ?_⟩
  · simp only [hloop]
  · simp only [hloop]
  · have key : dir_x ^ 2 + dir_y ^ 2 = len ^ 2 := hlen.symm
    by_cases hsp : speed < 0
    · rw [if_pos hsp, if_pos hsp]
      field_simp
      linear_combination key
    · rw [if_neg hsp, if_neg hsp]
      field_simp
      linear_combination key

/-- C5 witness: the exact-accumulation theorem instantiated on the all-floor
map with direction (1,0), speed 2 and unit length. -/
theorem c5_move_exact_accumulation_witness :
    (move_camera openMap camOpen 1 0 2 1).pos_x =
        camOpen.pos_x + (if (2 : ℚ) < 0 then -1 else 1) / 1 * |(2 : ℚ)| ∧
      (move_camera openMap camOpen 1 0 2 1).pos_y =
        camOpen.pos_y + (if (2 : ℚ) < 0 then -0 else 0) / 1 * |(2 : ℚ)| ∧
      ((if (2 : ℚ) < 0 then -(1 : ℚ) else 1) / 1) ^ 2 +
        ((if (2 : ℚ) < 0 then -(0 : ℚ) else 0) / 1) ^ 2 = 1 :=
  c5_move_exact_accumulation openMap camOpen 1 0 2 1 (by norm_num) (by norm_num) (by norm_num)
    (by norm_num [MAX_STEP, CAMERA_RADIUS]) (by with_unfolding_all decide)
    (by with_unfolding_all decide)

/-- C8 counterexample: on a wall-free map the center column's ray misses, and
the pixel at row 600 — below the horizon row 450 — is painted `SKY_COLOR`,
not `GROUND_COLOR` (the two colors differ): the whole column gets the sky
color. -/
theorem c8_no_ground_counterexample :
    render_column missMap camMiss 600 (fun _ _ => 0) 600 600 = SKY_COLOR ∧
      SKY_COLOR ≠ GROUND_COLOR ∧ fc_first_row < 600 := by
  with_unfolding_all decide

/-- C8 (amended): every screen column whose ray terminates with no wall hit is
painted with the fixed sky background color over its WHOLE height — every row
from 0 to `SCREEN_HEIGHT - 1`, above and below the horizon alike (the ground
color is never used). -/
theorem c8_miss_paints_sky (m : Map) (cam : Camera) (x : ℕ) (fb : ℤ → ℤ → ℕ) (yy : ℤ)
    (hmiss : cast_ray m cam.pos_x cam.pos_y (cam.dir_x + cam.plane_x * camera_lut x)
        (cam.dir_y + cam.plane_y * camera_lut x) = none)
    (hy0 : 0 ≤ yy) (hy1 : yy ≤ (SCREEN_HEIGHT : ℤ) - 1) :
    render_column m cam x fb yy x = SKY_COLOR := by
  unfold render_column
  rw [hmiss]
  simp [vertical_line, hy0, hy1]

/-- C8 witness: the all-sky fallback instantiated at a row above the horizon
(row 100) of the missing column. -/
theorem c8_miss_paints_sky_witness :
    render_column missMap camMiss 600 (fun _ _ => 0) 100 600 = SKY_COLOR :=
  c8_miss_paints_sky missMap camMiss 600 (fun _ _ => 0) 100
    (by with_unfolding_all decide) (by norm_num) (by norm_num [SCREEN_HEIGHT])

end Raycast
